import Mathlib

set_option maxRecDepth 100000

/-!
Verification development for the stremio-subs-ro resolution engine.

The definitions below are a shallow embedding of src/lib/matcher.js and
src/addon.js.  JavaScript strings are modelled as Lean String / List Char;
the ASCII case mappings model String.prototype.toLowerCase/toUpperCase on
the Basic Latin range, which is the only range the tag catalogs and the
episode patterns use.  Fallible collaborator calls are modelled with Except.
-/

namespace StremioSubsRo

/-- ASCII lower-casing, as JavaScript toLowerCase acts on Basic Latin. -/
def jsToLower (c : Char) : Char :=
  if 65 ≤ c.toNat ∧ c.toNat ≤ 90 then Char.ofNat (c.toNat + 32) else c

/-- ASCII upper-casing, as JavaScript toUpperCase acts on Basic Latin. -/
def jsToUpper (c : Char) : Char :=
  if 97 ≤ c.toNat ∧ c.toNat ≤ 122 then Char.ofNat (c.toNat - 32) else c

def lowerStr (s : List Char) : List Char := s.map jsToLower

def upperStr (s : List Char) : List Char := s.map jsToUpper

/-- The regex class \d. -/
def isDigitCh (c : Char) : Bool := decide (48 ≤ c.toNat ∧ c.toNat ≤ 57)

/-- The regex class [a-z0-9]. -/
def isLowerAlnum (c : Char) : Bool :=
  isDigitCh c || decide (97 ≤ c.toNat ∧ c.toNat ≤ 122)

/-- The regex class [a-zA-Z0-9]. -/
def isAlnumCh (c : Char) : Bool :=
  isLowerAlnum c || decide (65 ≤ c.toNat ∧ c.toNat ≤ 90)

/-- The regex class [a-z0-9.] used by the bracket pattern. -/
def isBracketCh (c : Char) : Bool := isLowerAlnum c || decide (c = '.')

/-- The JavaScript \s class (whitespace), restricted to its actual members. -/
def isJsSpace (c : Char) : Bool :=
  decide (c.toNat = 32 ∨ c.toNat = 9 ∨ c.toNat = 10 ∨ c.toNat = 11 ∨
    c.toNat = 12 ∨ c.toNat = 13 ∨ c.toNat = 160 ∨ c.toNat = 0x1680 ∨
    (0x2000 ≤ c.toNat ∧ c.toNat ≤ 0x200a) ∨ c.toNat = 0x2028 ∨
    c.toNat = 0x2029 ∨ c.toNat = 0x202f ∨ c.toNat = 0x205f ∨
    c.toNat = 0x3000 ∨ c.toNat = 0xfeff)

/-- The regex class \w, [A-Za-z0-9_]. -/
def isWordCh (c : Char) : Bool := isAlnumCh c || decide (c = '_')

/-- The regex class for the dot metacharacter: anything but a line terminator. -/
def dotCls (c : Char) : Bool :=
  decide (¬ (c.toNat = 10 ∨ c.toNat = 13 ∨ c.toNat = 0x2028 ∨ c.toNat = 0x2029))

/-- Does the text start with the given pattern (character-exact)? -/
def startsWithSub : List Char → List Char → Bool
  | [], _ => true
  | _ :: _, [] => false
  | c :: cs, d :: ds => c == d && startsWithSub cs ds

/-- String.prototype.includes: pattern occurs as a contiguous substring. -/
def containsSub (pat : List Char) : List Char → Bool
  | [] => startsWithSub pat []
  | c :: ts => startsWithSub pat (c :: ts) || containsSub pat ts

/-- String.prototype.trim, dropping JavaScript whitespace on the left. -/
def jsTrimLeft (s : List Char) : List Char := s.dropWhile (fun c => isJsSpace c)

/-- String.prototype.trim. -/
def jsTrim (s : List Char) : List Char :=
  (jsTrimLeft ((jsTrimLeft s).reverse)).reverse

/-- str.match of one-or-more-non-space runs: split into whitespace-free
tokens, dropping empty pieces (the /\s+/ split of a trimmed string). -/
def splitWsAux : List Char → List Char → List (List Char)
  | [], acc => if acc.isEmpty then [] else [acc.reverse]
  | c :: cs, acc =>
      if isJsSpace c then
        if acc.isEmpty then splitWsAux cs [] else acc.reverse :: splitWsAux cs []
      else splitWsAux cs (c :: acc)

def splitWs (s : List Char) : List (List Char) := splitWsAux s []

/-! ## Tag catalogs (src/lib/matcher.js lines 7-70) -/

def QUALITY_TAGS : List String :=
  ["CAM", "CAMRIP", "CAM-RIP", "HDCAM",
   "TS", "HDTS", "TELESYNC", "PDVD", "PREDVDRIP",
   "WP", "WORKPRINT",
   "TC", "HDTC", "TELECINE",
   "PPV", "PPVRIP",
   "SCR", "SCREENER", "DVDSCR", "DVDSCREENER", "BDSCR", "WEBSCREENER",
   "DDC",
   "R5",
   "DVDRIP", "DVDMUX", "DVDR", "DVD-FULL", "FULL-RIP", "DVD-5", "DVD-9",
   "DSR", "DSRIP", "SATRIP", "DTHRIP", "DVBRIP", "HDTV", "PDTV", "DTVRIP",
   "TVRIP", "HDTVRIP",
   "VODRIP", "VODR",
   "HC", "HDRIP",
   "WEBCAP", "WEB-CAP",
   "WEB-DL", "WEBDL", "WEBRIP", "WEB-RIP", "WEB-DLRIP",
   "BLURAY", "BLU-RAY", "BDRIP", "BRRIP", "BRIP", "BDR",
   "BD25", "BD50", "BD66", "BD100", "BD5", "BD9",
   "BDMV", "BDISO", "COMPLETE.BLURAY",
   "REMUX"]

def TECHNICAL_TAGS : List String :=
  ["1080P", "720P", "2160P", "4K", "UHD", "480P", "576P",
   "HDR", "HDR10", "HDR10PLUS", "DOLBYVISION", "DV",
   "X264", "H264", "X265", "H265", "HEVC", "AVC", "XVID", "DIVX", "VP9", "AV1",
   "AAC", "AC3", "DTS", "DTSHD", "DTSHDMA", "TRUEHD", "ATMOS",
   "DDP5", "DDP2", "DDP", "DD5", "DD2", "EAC3", "FLAC", "MP3", "OPUS",
   "5.1", "7.1", "2.0", "1.0",
   "INTERNAL", "REPACK", "PROPER", "LIMITED", "MULTI", "DUBBED", "SUBBED",
   "SUBS", "RO", "EN", "EXTENDED", "UNRATED", "DIRECTORS", "CUT", "THEATRICAL",
   "MKV", "MP4", "AVI"]

def IGNORED_TAGS : List String := QUALITY_TAGS ++ TECHNICAL_TAGS

/-! ## Release group extraction (src/lib/matcher.js lines 76-109) -/

/-- filename.replace of the trailing dot-extension: drop the final
period followed by a nonempty alphanumeric run at end of string. -/
def stripExt (s : List Char) : List Char :=
  let r := s.reverse
  let run := r.takeWhile isAlnumCh
  if run.isEmpty then s
  else
    match r.drop run.length with
    | '.' :: rest => rest.reverse
    | _ => s

/-- Is the run after a dash a valid group capture: a nonempty [a-z0-9]+ run
whose following character is a bracket, whitespace, or end of string? -/
def dashRunOk (rest : List Char) : Bool :=
  let run := rest.takeWhile isLowerAlnum
  !run.isEmpty &&
    (match rest.drop run.length with
     | [] => true
     | d :: _ => d == '[' || isJsSpace d)

/-- Pattern 1 of getReleaseGroup: the leftmost dash followed by an
alphanumeric token before a bracket, whitespace, or end of string. -/
def dashGroup : List Char → Option (List Char)
  | [] => none
  | c :: rest =>
      if c = '-' ∧ dashRunOk rest then some (rest.takeWhile isLowerAlnum)
      else dashGroup rest

/-- Part of pattern 2: a bracketed token at the very start. -/
def bracketStart (s : List Char) : Option (List Char) :=
  match s with
  | '[' :: rest =>
      if !(rest.takeWhile isBracketCh).isEmpty &&
          ((rest.drop (rest.takeWhile isBracketCh).length).head? == some ']')
      then some (rest.takeWhile isBracketCh) else none
  | _ => none

/-- Part of pattern 2: a bracketed token ending exactly at end of string. -/
def bracketEnd : List Char → Option (List Char)
  | [] => none
  | c :: rest =>
      if c = '[' ∧ rest.takeWhile isBracketCh ≠ [] ∧
          rest.drop (rest.takeWhile isBracketCh).length = [']']
      then some (rest.takeWhile isBracketCh)
      else bracketEnd rest

def bracketGroup (s : List Char) : Option (List Char) :=
  match bracketStart s with
  | some g => some g
  | none => bracketEnd s

/-- Is the (already upper-cased) token a bare 4-digit year? -/
def isYear4 (w : List Char) : Bool := w.length == 4 && w.all isDigitCh

/-- Pattern 3 scan: first of the given candidate words (already ordered
right to left) that is not an ignored tag, not a year, and at least 2
characters long. -/
def pickGroupWord : List (List Char) → Option String
  | [] => none
  | w :: ws =>
      if !IGNORED_TAGS.contains (String.mk (upperStr w)) && !isYear4 (upperStr w)
          && w.length ≥ 2
      then some (String.mk (upperStr w)) else pickGroupWord ws

def groupSeparators : List Char := ['.', '-', '_', '[', ']', '(', ')']

/-- Pattern 3 of getReleaseGroup: tokenize on separators and whitespace and
scan the last two words right to left. -/
def wordsGroup (name : List Char) : Option String :=
  let cleaned := name.map (fun c => if groupSeparators.contains c then ' ' else c)
  let words := splitWs (jsTrim cleaned)
  pickGroupWord (words.reverse.take 2)

/-- getReleaseGroup (src/lib/matcher.js lines 76-109). -/
def getReleaseGroup (filename : String) : Option String :=
  if filename.data.isEmpty then none
  else
    match dashGroup (lowerStr (stripExt filename.data)) with
    | some g => some (String.mk (upperStr g))
    | none =>
        match bracketGroup (lowerStr (stripExt filename.data)) with
        | some g => some (String.mk (upperStr g))
        | none => wordsGroup (lowerStr (stripExt filename.data))

/-! ## Tag extraction (src/lib/matcher.js lines 116-139) -/

/-- getQualityTags: the quality tags occurring in the upper-cased filename,
in catalog order. -/
def getQualityTags (filename : String) : List String :=
  if filename.data.isEmpty then []
  else QUALITY_TAGS.filter (fun tag => containsSub tag.data (upperStr filename.data))

/-- getTechnicalTags: the technical tags occurring in the upper-cased
filename, in catalog order. -/
def getTechnicalTags (filename : String) : List String :=
  if filename.data.isEmpty then []
  else TECHNICAL_TAGS.filter (fun tag => containsSub tag.data (upperStr filename.data))

/-! ## Fuzzy similarity

Modelled from the spec: the token-set fuzzy-similarity ratio used by the
scoring engine (the fuzzball library required by src/lib/matcher.js, whose
source is not part of this repository).  The model follows the library's
documented algorithm: full-process both strings (lower-case, map
non-alphanumerics to spaces, trim), tokenize and deduplicate, and take the
maximum of the three pairwise similarity ratios between the sorted token
intersection and the two sorted unions.  The pairwise ratio is the
python-Levenshtein-compatible one: with d the edit distance counting a
substitution as 2, ratio = round(100 * (lensum - d) / lensum); rounding of
the nonnegative rational x/y half-up is floor((2x + y) / (2y)). -/

/-- fuzzball full_process: keep alphanumerics lower-cased, map every other
character to a space, trim. -/
def full_process (s : List Char) : List Char :=
  jsTrim (s.map (fun c => if isAlnumCh c then jsToLower c else ' '))

/-- Lexicographic strict order on code units, as the default Array sort
comparator orders strings. -/
def lexLt : List Char → List Char → Bool
  | [], [] => false
  | [], _ :: _ => true
  | _ :: _, [] => false
  | a :: as, b :: bs => decide (a.toNat < b.toNat) || (a == b && lexLt as bs)

def insSorted (w : List Char) : List (List Char) → List (List Char)
  | [] => [w]
  | v :: vs => if lexLt w v then w :: v :: vs else v :: insSorted w vs

def sortTokens (l : List (List Char)) : List (List Char) :=
  l.foldl (fun acc w => insSorted w acc) []

def uniqTokensAux : List (List Char) → List (List Char) → List (List Char)
  | [], _ => []
  | w :: ws, seen =>
      if seen.contains w then uniqTokensAux ws seen
      else w :: uniqTokensAux ws (w :: seen)

/-- Deduplication keeping first occurrences. -/
def uniqTokens (l : List (List Char)) : List (List Char) := uniqTokensAux l []

def joinSp : List (List Char) → List Char
  | [] => []
  | [w] => w
  | w :: v :: ws => w ++ ' ' :: joinSp (v :: ws)

/-- One row update of the weighted Levenshtein dynamic program
(substitution cost 2).  prev interleaves the previous row; left is the
value just computed in the current row. -/
def levGo (c : Char) : List Char → Nat → List Nat → List Nat
  | [], _, _ => []
  | b :: bs, left, pdiag :: ptail =>
      let pup := ptail.headD 0
      let cost := if c == b then pdiag else pdiag + 2
      let v := min cost (min (left + 1) (pup + 1))
      v :: levGo c bs v ptail
  | _ :: _, _, [] => []

def levRowsAux : List Char → List Char → List Nat → List Nat
  | [], _, prevRow => prevRow
  | c :: cs, b, prevRow =>
      levRowsAux cs b ((prevRow.headD 0 + 1) :: levGo c b (prevRow.headD 0 + 1) prevRow)

/-- Edit distance with unit insert/delete and substitution cost 2. -/
def levenshtein2 (a b : List Char) : Nat :=
  (levRowsAux a b (List.range (b.length + 1))).getLastD 0

/-- The pairwise similarity ratio on processed strings. -/
def ratioInt (a b : List Char) : Nat :=
  let lensum := a.length + b.length
  if lensum = 0 then 100
  else (200 * (lensum - levenshtein2 a b) + lensum) / (2 * lensum)

/-- fuzzball token_set_ratio on two strings (the caller has already
lower-cased them; full_process lower-cases again, harmlessly). -/
def token_set_ratio (a b : List Char) : Nat :=
  let p1 := full_process a
  let p2 := full_process b
  if p1.isEmpty || p2.isEmpty then 0
  else
    let t1 := uniqTokens (splitWs p1)
    let t2 := uniqTokens (splitWs p2)
    let sect := sortTokens (t1.filter (fun w => t2.contains w))
    let d1 := sortTokens (t1.filter (fun w => !(t2.contains w)))
    let d2 := sortTokens (t2.filter (fun w => !(t1.contains w)))
    let s0 := joinSp sect
    let c1 := jsTrim (s0 ++ ' ' :: joinSp d1)
    let c2 := jsTrim (s0 ++ ' ' :: joinSp d2)
    max (ratioInt s0 c1) (max (ratioInt s0 c2) (ratioInt c1 c2))

/-! ## Weighted scoring (src/lib/matcher.js lines 158-216) -/

structure PageMeta where
  fps : Option String
  formats : List String
deriving DecidableEq

/-- The release-group bonus condition of calculateMatchScore: the video
group is extracted and either equals the subtitle group or occurs in the
upper-cased subtitle filename. -/
def hasGroupMatch (videoFilename subtitleFilename : String) : Bool :=
  match getReleaseGroup videoFilename with
  | none => false
  | some vGroup =>
      (match getReleaseGroup subtitleFilename with
       | some sGroup => vGroup == sGroup
       | none => false)
      || containsSub vGroup.data (upperStr subtitleFilename.data)

/-- The source-type bonus condition: a video quality tag occurs in the
subtitle filename, or overlaps bidirectionally with a metadata format. -/
def hasSourceMatch (videoFilename subtitleFilename : String)
    (metadata : Option PageMeta) : Bool :=
  let vTags := getQualityTags videoFilename
  let subNormalized := upperStr subtitleFilename.data
  let metadataFormats :=
    match metadata with
    | some m => m.formats.map (fun f : String => upperStr f.data)
    | none => []
  vTags.any (fun tag => containsSub tag.data subNormalized)
  || (!metadataFormats.isEmpty &&
      vTags.any (fun tag => metadataFormats.any
        (fun format => containsSub tag.data format || containsSub format tag.data)))

/-- How many technical tags of the video filename occur in the subtitle
filename. -/
def techMatchCount (videoFilename subtitleFilename : String) : Nat :=
  ((getTechnicalTags videoFilename).filter
    (fun tag => containsSub tag.data (upperStr subtitleFilename.data))).length

/-- The capped fuzzy tiebreaker: Math.min(15, Math.round(ratio * 0.15)),
with the float rounding realized exactly as (3 r + 10) / 20 on naturals. -/
def fuzzyBonus (videoFilename subtitleFilename : String) : Nat :=
  min 15
    ((3 * token_set_ratio (lowerStr videoFilename.data) (lowerStr subtitleFilename.data)
      + 10) / 20)

/-- calculateMatchScore (src/lib/matcher.js lines 158-216). -/
def calculateMatchScore (videoFilename subtitleFilename : String)
    (metadata : Option PageMeta) : Nat :=
  if videoFilename.data.isEmpty || subtitleFilename.data.isEmpty then 0
  else
    min 100
      ((if hasGroupMatch videoFilename subtitleFilename then 50 else 0)
        + (if hasSourceMatch videoFilename subtitleFilename metadata then 30 else 0)
        + (if techMatchCount videoFilename subtitleFilename > 0 then 5 else 0)
        + fuzzyBonus videoFilename subtitleFilename)

/-! ## Episode matching (src/lib/matcher.js lines 226-289)

JavaScript numbers reaching matchesEpisode are either integers or NaN
(parseInt results); null season/episode arguments are modelled with
Option.  String(n) stringification follows JavaScript. -/

inductive JSNum where
  | int (i : Int)
  | nan
deriving DecidableEq

def jsNumToString : JSNum → String
  | .int i => toString i
  | .nan => "NaN"

/-- String(v) for a possibly-null number (String(null) is "null"). -/
def jsNumOptToString : Option JSNum → String
  | none => "null"
  | some v => jsNumToString v

/-- String.prototype.padStart(2, "0"). -/
def padStart2 (s : String) : String :=
  if s.data.length < 2 then String.mk (List.replicate (2 - s.data.length) '0' ++ s.data)
  else s

/-! ### The season indicator scan

The static seasonIndicatorRegex has no interpolated parts, so it is
embedded as a direct scanner.  In each branch the greedy run is the only
candidate because the character class of a run never contains the
character that must follow it. -/

def seasonKeywords : List String :=
  ["season", "sezon", "stagione", "saison", "staffel", "évad", "κύκλος",
   "temporada"]

def episodeKeywords : List String :=
  ["episode", "episod", "episodio", "épisode", "folge", "epizód",
   "επεισόδιο", "episódio"]

/-- Does s\d+e\d+ match at the head of the text? -/
def sxeAt (l : List Char) : Bool :=
  match l with
  | 's' :: rest =>
      let ds := rest.takeWhile isDigitCh
      !ds.isEmpty &&
        (match rest.drop ds.length with
         | 'e' :: rest2 => !(rest2.takeWhile isDigitCh).isEmpty
         | _ => false)
  | _ => false

/-- Does \d+x\d+ match at the head of the text? -/
def dxdAt (l : List Char) : Bool :=
  let ds := l.takeWhile isDigitCh
  !ds.isEmpty &&
    (match l.drop ds.length with
     | 'x' :: rest2 => !(rest2.takeWhile isDigitCh).isEmpty
     | _ => false)

/-- Does some season keyword followed by \s*\d+ match at the head? -/
def kwNumAt (l : List Char) : Bool :=
  seasonKeywords.any (fun kw =>
    startsWithSub kw.data l &&
      (let rest := l.drop kw.data.length
       let sp := rest.takeWhile isJsSpace
       !((rest.drop sp.length).takeWhile isDigitCh).isEmpty))

def seasonIndicatorAt (l : List Char) : Bool := sxeAt l || dxdAt l || kwNumAt l

/-- Does the (lower-cased) text contain a season indicator anywhere? -/
def hasSeasonIndicator : List Char → Bool
  | [] => false
  | c :: cs => seasonIndicatorAt (c :: cs) || hasSeasonIndicator cs

/-! ### A small pattern engine for the interpolated patterns

The dynamic strict/lenient patterns are sequences of literals, one-or-more
and zero-or-more character classes, an optional character, and word
boundaries; alternation groups are expanded into one pattern per
alternative.  The matcher is a backtracking existence test; the fuel
argument strictly exceeds any possible number of steps (every step either
consumes input or discharges an item) so the test is total and
fuel-independent at the chosen value. -/

inductive RItem where
  | lit (cs : List Char)
  | one (cls : Char → Bool)
  | star (cls : Char → Bool)
  | plus (cls : Char → Bool)
  | optC (c : Char)
  | wb

def itemWeight : RItem → Nat
  | .lit l => l.length + 1
  | _ => 1

def itemsWeight (items : List RItem) : Nat := (items.map itemWeight).sum

def isWordOpt : Option Char → Bool
  | none => false
  | some c => isWordCh c

/-- Is the current position a \b word boundary, given the previous
character and the remaining input? -/
def wordBoundary (prev : Option Char) (input : List Char) : Bool :=
  isWordOpt prev != (match input with
                     | [] => false
                     | c :: _ => isWordCh c)

def matchItemsF : Nat → Option Char → List RItem → List Char → Bool
  | 0, _, _, _ => false
  | _ + 1, _, [], _ => true
  | fuel + 1, prev, .lit [] :: rest, input => matchItemsF fuel prev rest input
  | fuel + 1, _, .lit (c :: cs) :: rest, d :: ds =>
      c == d && matchItemsF fuel (some d) (.lit cs :: rest) ds
  | _ + 1, _, .lit (_ :: _) :: _, [] => false
  | fuel + 1, _, .one cls :: rest, d :: ds =>
      cls d && matchItemsF fuel (some d) rest ds
  | _ + 1, _, .one _ :: _, [] => false
  | fuel + 1, prev, .optC c :: rest, input =>
      (match input with
       | d :: ds => c == d && matchItemsF fuel (some d) rest ds
       | [] => false)
      || matchItemsF fuel prev rest input
  | fuel + 1, prev, .star cls :: rest, input =>
      matchItemsF fuel prev rest input
      || (match input with
          | d :: ds => cls d && matchItemsF fuel (some d) (.star cls :: rest) ds
          | [] => false)
  | fuel + 1, _, .plus cls :: rest, d :: ds =>
      cls d && matchItemsF fuel (some d) (.star cls :: rest) ds
  | _ + 1, _, .plus _ :: _, [] => false
  | fuel + 1, prev, .wb :: rest, input =>
      wordBoundary prev input && matchItemsF fuel prev rest input

/-- Do the items match a prefix of the input? -/
def matchItems (prev : Option Char) (items : List RItem) (input : List Char) : Bool :=
  matchItemsF (input.length + itemsWeight items + 1) prev items input

/-- RegExp.prototype.test: try to match at every position. -/
def searchItems : Option Char → List RItem → List Char → Bool
  | prev, items, [] => matchItems prev items []
  | prev, items, c :: cs =>
      matchItems prev items (c :: cs) || searchItems (some c) items cs

def rtest (pats : List (List RItem)) (text : List Char) : Bool :=
  pats.any (fun p => searchItems none p text)

/-! ### The strict and lenient pattern families -/

/-- A literal, lower-cased at construction: against the lower-cased text
this models the i flag of the source regexes. -/
def litL (cs : List Char) : RItem := .lit (lowerStr cs)

def sepCls (c : Char) : Bool :=
  decide (c = '-') || decide (c = '.') || decide (c = '_') || isJsSpace c

def sepClsBr (c : Char) : Bool := sepCls c || decide (c = '[')

/-- The strict patterns built for a season context, from the padded and
short season/episode strings (the two keyword alternations are expanded
into one pattern per keyword pair). -/
def strictPatterns (s2 s1 e2 e1 : List Char) : List (List RItem) :=
  [ [litL ('s' :: s2 ++ 'e' :: e2), .wb],
    [litL ('s' :: s1 ++ 'e' :: e1), .wb],
    [litL ('s' :: s2 ++ 'e' :: e1), .wb],
    [litL ('s' :: s1 ++ 'e' :: e2), .wb],
    [.wb, litL (s1 ++ 'x' :: e2), .wb],
    [.wb, litL (s1 ++ 'x' :: e1), .wb],
    [.wb, litL (s2 ++ 'x' :: e2), .wb] ]
  ++ (seasonKeywords.flatMap (fun kw1 => episodeKeywords.map (fun kw2 =>
        [litL kw1.data, .star isJsSpace, litL s1, .star dotCls,
         litL kw2.data, .star isJsSpace, litL e1])))
  ++ (seasonKeywords.flatMap (fun kw1 => episodeKeywords.map (fun kw2 =>
        [litL kw1.data, .star isJsSpace, litL s2, .star dotCls,
         litL kw2.data, .star isJsSpace, litL e2])))

/-- The lenient episode-only patterns. -/
def episodeOnlyPatterns (e2 e1 : List Char) : List (List RItem) :=
  [ [.wb, litL ('e' :: e2), .wb],
    [.wb, litL ('e' :: e1), .wb],
    [.wb, litL ['e', 'p'], .optC '.', .star isJsSpace, litL e1, .wb],
    [.wb, litL ['e', 'p'], .optC '.', .star isJsSpace, litL e2, .wb] ]
  ++ episodeKeywords.map (fun kw =>
       [.wb, litL kw.data, .star isJsSpace, litL e1, .wb])
  ++ episodeKeywords.map (fun kw =>
       [.wb, litL kw.data, .star isJsSpace, litL e2, .wb])
  ++ [ [.one sepCls, litL e2, .one sepClsBr] ]

/-- The strict branch of matchesEpisode. -/
def strictMatch (nt : List Char) (season : Option JSNum) (ep : JSNum) : Bool :=
  rtest
    (strictPatterns
      (padStart2 (jsNumOptToString season)).data
      (jsNumOptToString season).data
      (padStart2 (jsNumToString ep)).data
      (jsNumToString ep).data)
    nt

/-- The lenient branch of matchesEpisode. -/
def lenientMatch (nt : List Char) (ep : JSNum) : Bool :=
  rtest
    (episodeOnlyPatterns
      (padStart2 (jsNumToString ep)).data
      (jsNumToString ep).data)
    nt

/-- matchesEpisode (src/lib/matcher.js lines 226-289). -/
def matchesEpisode (text : Option String) (season : Option JSNum)
    (episode : Option JSNum) : Bool :=
  match text, episode with
  | none, _ => false
  | _, none => false
  | some t, some ep =>
      if t.data.isEmpty then false
      else
        let nt := lowerStr t.data
        if hasSeasonIndicator nt then strictMatch nt season ep
        else lenientMatch nt ep

/-! ## The resolution coordinator (src/addon.js)

Promises are modelled by values, collaborator failures by Except, the
module-level caches by association lists threaded through the handler, and
Date.now() by an integer parameter.  The archive cache store
(lib/archiveCache, not part of src/) is modelled from the spec as a plain
get/set map; its TTL expiry is not modelled since every claim below
concerns a single instant. -/

def LANGUAGE_MAPPING : List (String × String) :=
  [("ro", "ron"), ("en", "eng"), ("ita", "ita"), ("fra", "fra"),
   ("ger", "deu"), ("ung", "hun"), ("gre", "ell"), ("por", "por"),
   ("spa", "spa"), ("alt", "und")]

def CACHE_TTL : Int := 15 * 60 * 1000

def EMPTY_CACHE_TTL : Int := 60 * 1000

structure ParsedId where
  imdbId : String
  season : Option JSNum
  episode : Option JSNum
deriving DecidableEq

/-- parseInt(s, 10): trim, optional sign, leading digits; NaN otherwise. -/
def jsParseInt (s : String) : JSNum :=
  let t := s.data.dropWhile (fun c => isJsSpace c)
  let core : List Char → JSNum := fun l =>
    let ds := l.takeWhile isDigitCh
    if ds.isEmpty then .nan
    else .int (Int.ofNat (ds.foldl (fun n c => 10 * n + (c.toNat - 48)) 0))
  match t with
  | '-' :: rest =>
      let ds := rest.takeWhile isDigitCh
      if ds.isEmpty then .nan
      else .int (-(Int.ofNat (ds.foldl (fun n c => 10 * n + (c.toNat - 48)) 0)))
  | '+' :: rest => core rest
  | _ => core t

/-- parseStremioId (src/addon.js lines 43-50): split on colons; an absent
or empty part is null, otherwise parseInt. -/
def parseStremioId (id : String) : ParsedId :=
  let parts := id.splitOn ":"
  { imdbId := parts.headD ""
    season := match parts[1]? with
              | some s => if s.data.isEmpty then none else some (jsParseInt s)
              | none => none
    episode := match parts[2]? with
               | some s => if s.data.isEmpty then none else some (jsParseInt s)
               | none => none }

/-- The template-literal encoding of config.languages inside the cache key:
an absent filter is the string "all" (undefined is falsy), an array
stringifies as its comma-join (an empty array is truthy and stringifies
as the empty string). -/
def langsEncode : Option (List String) → String
  | none => "all"
  | some l => String.intercalate "," l

/-- The response cache key of subtitlesHandler (src/addon.js lines 108-110). -/
def requestCacheKey (imdbId : String) (isSeries : Bool)
    (season episode : Option JSNum) (languages : Option (List String)) : String :=
  if isSeries then
    imdbId ++ "_s" ++ jsNumOptToString season ++ "e" ++ jsNumOptToString episode
      ++ "_" ++ langsEncode languages
  else imdbId ++ "_" ++ langsEncode languages

/-! ### Collaborator interfaces -/

/-- Raw archive bytes, abstract to this core. -/
def Buffer : Type := List Nat

instance : DecidableEq Buffer := by
  unfold Buffer
  exact inferInstance

structure SubRecord where
  id : String
  language : String
  link : String
  translator : Option String
  title : Option String
deriving DecidableEq

/-- The external collaborators consumed by the coordinator; any of them may
throw, modelled by Except. -/
structure Env where
  searchByImdb : String → Except String (List SubRecord)
  downloadArchive : String → String → Except String Buffer
  listSrtFiles : Buffer → Except String (List String)
  getArchiveType : Buffer → Except String String
  getSubtitleMetadata : String → Except String PageMeta
  nodeEnv : Option String
  port : Option String

structure ArchiveEntry where
  buffer : Buffer
  srtFiles : List String
  archiveType : String
  timestamp : Int
deriving DecidableEq

def ArchiveCache : Type := List (String × ArchiveEntry)

instance : DecidableEq ArchiveCache := by
  unfold ArchiveCache
  exact inferInstance

/-! ### Archive listing with caching (src/addon.js lines 56-97) -/

/-- The fallible part of getArchiveSrtList: download the archive through
the rate limiter, list its SRT files, detect the archive type. -/
def archivePipeline (env : Env) (apiKey subId : String) :
    Except String (Buffer × List String × String) := do
  let downloadUrl := "https://subs.ro/api/v1.0/subtitle/" ++ subId ++ "/download"
  let buffer ← env.downloadArchive apiKey downloadUrl
  let srtFiles ← env.listSrtFiles buffer
  let archiveType ← env.getArchiveType buffer
  pure (buffer, srtFiles, archiveType)

/-- getArchiveSrtList: serve from the archive cache, otherwise run the
pipeline; on success cache and return the listing, on any failure return
the empty list and leave the cache untouched. -/
def getArchiveSrtList (env : Env) (now : Int) (archive : ArchiveCache)
    (apiKey subId : String) : List String × ArchiveCache :=
  match List.lookup ("archive_" ++ subId) archive with
  | some entry => (entry.srtFiles, archive)
  | none =>
      match archivePipeline env apiKey subId with
      | .ok (buffer, srtFiles, archiveType) =>
          (srtFiles, ("archive_" ++ subId, ⟨buffer, srtFiles, archiveType, now⟩) :: archive)
      | .error _ => ([], archive)

/-! ### The resolution body (the fetchTask of src/addon.js lines 123-241) -/

structure Subtitle where
  id : String
  url : String
  lang : String
deriving DecidableEq

structure Cand where
  id : String
  url : String
  lang : String
  srtPath : String
  matchScore : Nat
  metadata : Option PageMeta
deriving DecidableEq

/-- UTF-8 bytes of a character (code points are below 0x110000). -/
def utf8Bytes (c : Char) : List Nat :=
  let n := c.toNat
  if n < 0x80 then [n]
  else if n < 0x800 then [0xc0 + n / 64, 0x80 + n % 64]
  else if n < 0x10000 then
    [0xe0 + n / 4096, 0x80 + n / 64 % 64, 0x80 + n % 64]
  else
    [0xf0 + n / 262144, 0x80 + n / 4096 % 64, 0x80 + n / 64 % 64, 0x80 + n % 64]

def base64urlAlphabet : List Char :=
  "ABCDEFGHIJKLMNOPQRSTUVWXYZabcdefghijklmnopqrstuvwxyz0123456789-_".data

def b64At (i : Nat) : Char := (base64urlAlphabet.getD i 'A')

/-- Buffer.toString of the base64url encoding (unpadded). -/
def base64urlChunks : List Nat → List Char
  | [] => []
  | [a] => [b64At (a / 4), b64At (a % 4 * 16)]
  | [a, b] => [b64At (a / 4), b64At (a % 4 * 16 + b / 16), b64At (b % 16 * 4)]
  | a :: b :: c :: rest =>
      b64At (a / 4) :: b64At (a % 4 * 16 + b / 16) ::
      b64At (b % 16 * 4 + c / 64) :: b64At (c % 64) :: base64urlChunks rest

def base64url (s : String) : String :=
  String.mk (base64urlChunks (s.data.flatMap utf8Bytes))

def BEAMUP_URL : String := "https://cdcd7719a6b3-stremio-subs-ro.baby-beamup.club"

/-- Process one search record: archive listing, lazy metadata, episode
filter, scoring (the body of the for-of loop over filteredResults). -/
def processRecord (env : Env) (now : Int) (apiKey baseUrl : String)
    (isSeries : Bool) (season episode : Option JSNum) (videoFilename : String)
    (sub : SubRecord) (archive : ArchiveCache) :
    Except String (List Cand) × ArchiveCache :=
  let res := getArchiveSrtList env now archive apiKey sub.id
  let srtFiles := res.1
  let archive1 := res.2
  let lang := (List.lookup sub.language LANGUAGE_MAPPING).getD sub.language
  let needsMetadata := srtFiles.any (fun srtPath =>
    (getReleaseGroup srtPath).isNone || (getQualityTags srtPath).isEmpty)
  match (if needsMetadata
         then (env.getSubtitleMetadata sub.link).map (fun m => some m)
         else .ok none) with
  | .error e => (.error e, archive1)
  | .ok metadata =>
      let cands := srtFiles.filterMap (fun srtPath =>
        if isSeries && !matchesEpisode (some srtPath) season episode then none
        else
          let encodedSrtPath := base64url srtPath
          some { id := "subsro_" ++ sub.id ++ "_" ++ String.mk (encodedSrtPath.data.take 8)
                 url := baseUrl ++ "/" ++ apiKey ++ "/proxy/" ++ sub.id ++ "/"
                   ++ encodedSrtPath ++ "/sub.vtt"
                 lang := lang
                 srtPath := srtPath
                 matchScore := calculateMatchScore videoFilename srtPath metadata
                 metadata := metadata })
      (.ok cands, archive1)

def processRecords (env : Env) (now : Int) (apiKey baseUrl : String)
    (isSeries : Bool) (season episode : Option JSNum) (videoFilename : String) :
    List SubRecord → ArchiveCache → List Cand →
    Except String (List Cand) × ArchiveCache
  | [], archive, acc => (.ok acc, archive)
  | sub :: rest, archive, acc =>
      match processRecord env now apiKey baseUrl isSeries season episode
          videoFilename sub archive with
      | (.error e, archive1) => (.error e, archive1)
      | (.ok cands, archive1) =>
          processRecords env now apiKey baseUrl isSeries season episode
            videoFilename rest archive1 (acc ++ cands)

/-- Stable descending insertion by matchScore: ties keep discovery order,
as the stable Array.prototype.sort with comparator b.score - a.score. -/
def insertByScore (c : Cand) : List Cand → List Cand
  | [] => [c]
  | d :: ds => if c.matchScore > d.matchScore then c :: d :: ds
               else d :: insertByScore c ds

def sortByScoreDesc (l : List Cand) : List Cand :=
  l.foldl (fun acc c => insertByScore c acc) []

/-- The fetchTask body: search, language filter, per-record processing,
ranking, top-5 projection.  An error anywhere surfaces as Except.error
together with the archive-cache mutations made before the throw. -/
def resolveBody (env : Env) (now : Int) (archive : ArchiveCache)
    (apiKey imdbId : String) (isSeries : Bool) (season episode : Option JSNum)
    (videoFilename : String) (languages : Option (List String))
    (baseUrl : String) : Except String (List Subtitle) × ArchiveCache :=
  match env.searchByImdb imdbId with
  | .error e => (.error e, archive)
  | .ok results =>
      let filteredResults :=
        match languages with
        | some ls =>
            if ls.length > 0 then results.filter (fun sub => ls.contains sub.language)
            else results
        | none => results
      match processRecords env now apiKey baseUrl isSeries season episode
          videoFilename filteredResults archive [] with
      | (.error e, archive1) => (.error e, archive1)
      | (.ok allSubtitles, archive1) =>
          let sorted := sortByScoreDesc allSubtitles
          let subtitles := (sorted.take 5).map (fun c =>
            ({ id := c.id, url := c.url, lang := c.lang } : Subtitle))
          (.ok subtitles, archive1)

/-! ### The handler itself (src/addon.js lines 99-245) -/

structure CacheEntry where
  data : List Subtitle
  timestamp : Int
  ttl : Int
deriving DecidableEq

structure HandlerState where
  cache : List (String × CacheEntry)
  pending : List (String × List Subtitle)
  archive : ArchiveCache
deriving DecidableEq

structure Extra where
  filename : Option String
deriving DecidableEq

structure Config where
  apiKey : Option String
  languages : Option (List String)
  baseUrl : Option String
deriving DecidableEq

structure Request where
  type : String
  id : String
  extra : Option Extra
  config : Option Config
deriving DecidableEq

/-- The request-cache probe: an entry whose age is within its ttl. -/
def freshCacheLookup (now : Int) (cache : List (String × CacheEntry))
    (key : String) : Option (List Subtitle) :=
  match List.lookup key cache with
  | some entry => if now - entry.timestamp < entry.ttl then some entry.data else none
  | none => none

/-- config.apiKey truthiness: present and nonempty. -/
def apiKeyUsable : Option String → Bool
  | none => false
  | some k => !k.data.isEmpty

/-- The base-url selection of the fetchTask (env-driven production
override, then config.baseUrl, then the local default). -/
def computeBaseUrl (env : Env) (config : Config) : String :=
  match env.nodeEnv with
  | some _ => BEAMUP_URL
  | none =>
      match config.baseUrl with
      | some b =>
          if b.data.isEmpty then "http://localhost:" ++ env.port.getD "7000" else b
      | none => "http://localhost:" ++ env.port.getD "7000"

/-- extra?.filename with the empty-string default. -/
def videoFilenameOf (req : Request) : String :=
  match req.extra with
  | some ex => ex.filename.getD ""
  | none => ""

/-- type === "series" and episode !== null. -/
def handlerIsSeries (req : Request) : Bool :=
  req.type == "series" && (parseStremioId req.id).episode.isSome

/-- The response-cache key the handler computes for a request. -/
def handlerKey (req : Request) (config : Config) : String :=
  requestCacheKey (parseStremioId req.id).imdbId (handlerIsSeries req)
    (parseStremioId req.id).season (parseStremioId req.id).episode
    config.languages

/-- subtitlesHandler: the full handler.  In-flight promises are modelled by
their resolved values in the pending map; the body sits behind the
try/catch, so a failing body yields the empty list (and keeps whatever the
archive cache absorbed before the throw). -/
def subtitlesHandler (env : Env) (now : Int) (st : HandlerState)
    (req : Request) : List Subtitle × HandlerState :=
  match req.config with
  | none => ([], st)
  | some config =>
      if !apiKeyUsable config.apiKey then ([], st)
      else
        match freshCacheLookup now st.cache (handlerKey req config) with
        | some data => (data, st)
        | none =>
            match List.lookup (handlerKey req config) st.pending with
            | some task => (task, st)
            | none =>
                match resolveBody env now st.archive (config.apiKey.getD "")
                    (parseStremioId req.id).imdbId (handlerIsSeries req)
                    (parseStremioId req.id).season (parseStremioId req.id).episode
                    (videoFilenameOf req) config.languages
                    (computeBaseUrl env config) with
                | (.ok subtitles, archive1) =>
                    (subtitles,
                     { st with
                        archive := archive1
                        cache := (handlerKey req config,
                          { data := subtitles, timestamp := now
                            ttl := if subtitles.length > 0 then CACHE_TTL
                                   else EMPTY_CACHE_TTL }) :: st.cache })
                | (.error _, archive1) => ([], { st with archive := archive1 })

/-! ## Helper lemmas -/

/-- Unfolding matchesEpisode on present text and episode. -/
theorem matchesEpisode_some (t : String) (season : Option JSNum) (ep : JSNum) :
    matchesEpisode (some t) season (some ep) =
      if t.data.isEmpty then false
      else if hasSeasonIndicator (lowerStr t.data) then
        strictMatch (lowerStr t.data) season ep
      else lenientMatch (lowerStr t.data) ep := rfl

/-- The fuzzy tiebreaker never exceeds its cap. -/
theorem fuzzyBonus_le (v s : String) : fuzzyBonus v s ≤ 15 :=
  Nat.min_le_left _ _

/-! ## C4: the two documented getReleaseGroup examples -/

/-- C4 counterexample: the claim asserts getReleaseGroup of
"Unknown.File.mkv" is null; the code extracts a group for it (the
last-two-words heuristic accepts "FILE"). -/
theorem getReleaseGroup_unknown_file_not_null :
    ¬ (getReleaseGroup "Unknown.File.mkv" = none) := by decide

/-- C4 (amended): getReleaseGroup extracts "RARBG" from the dashed scene
name, and extracts "FILE" (not null) from "Unknown.File.mkv", because the
heuristic third pattern accepts any last word of length at least 2 that is
neither a catalog tag nor a year. -/
theorem getReleaseGroup_examples :
    getReleaseGroup "Movie.Title.2023.1080p.WEB-DL-RARBG.mkv" = some "RARBG" ∧
    getReleaseGroup "Unknown.File.mkv" = some "FILE" := by
  constructor
  · decide
  · decide

/-! ## C5: score bounds -/

/-- C5: calculateMatchScore is bounded by [0, 100] (it is a natural
number, so the statement is the upper bound) and is exactly 0 whenever
either filename is empty; a missing (undefined/null) filename takes the
same falsy guard and is modelled by the empty string. -/
theorem calculateMatchScore_bounded (v s : String) (m : Option PageMeta) :
    calculateMatchScore v s m ≤ 100 ∧
    (v = "" ∨ s = "" → calculateMatchScore v s m = 0) := by
  constructor
  · unfold calculateMatchScore
    split
    · exact Nat.zero_le 100
    · exact Nat.min_le_left _ _
  · intro h
    unfold calculateMatchScore
    have : (v.data.isEmpty || s.data.isEmpty) = true := by
      rcases h with h | h <;> subst h <;> simp
    rw [if_pos this]

/-- C5 witness: a concrete empty-input evaluation through the theorem. -/
theorem calculateMatchScore_bounded_witness :
    calculateMatchScore "" "Movie.mkv" none = 0 :=
  (calculateMatchScore_bounded "" "Movie.mkv" none).2 (Or.inl rfl)

/-! ## C7: lenient episode-only matching -/

/-- C7: with no season indicator in the text, the lenient branch accepts
the delimited padded episode number ".05." for every season argument
(including null). -/
theorem matchesEpisode_lenient_every_season (season : Option JSNum) :
    matchesEpisode (some "Show.Episode.05.720p") season (some (JSNum.int 5)) = true := by
  rw [matchesEpisode_some]
  have h0 : ("Show.Episode.05.720p".data.isEmpty) = false := by decide
  have h1 : hasSeasonIndicator (lowerStr "Show.Episode.05.720p".data) = false := by decide
  have h2 : lenientMatch (lowerStr "Show.Episode.05.720p".data) (JSNum.int 5) = true := by
    decide
  rw [h0, h1, h2]
  simp

/-! ## C9: degenerate inputs -/

/-- C9: a null/undefined episode, a null text, and an empty text each make
matchesEpisode false, before any pattern is consulted; the embedding is a
total function, so no exception can arise. -/
theorem matchesEpisode_degenerate (t : Option String) (season : Option JSNum)
    (ep : Option JSNum) :
    matchesEpisode t season none = false ∧
    matchesEpisode none season ep = false ∧
    matchesEpisode (some "") season ep = false := by
  refine ⟨?_, ?_, ?_⟩
  · cases t <;> rfl
  · cases ep <;> rfl
  · cases ep with
    | none => rfl
    | some e => rw [matchesEpisode_some]; simp

/-! ## C2: the cache key and the language filter order -/

/-- C2 counterexample: two requests identical except for the order of the
language filter produce different cache keys. -/
theorem requestCacheKey_order_dependent :
    requestCacheKey "tt0111161" false none none (some ["ro", "en"]) ≠
    requestCacheKey "tt0111161" false none none (some ["en", "ro"]) := by decide

theorem string_append_cancel_left {p a b : String} (h : p ++ a = p ++ b) :
    a = b := by
  apply String.ext
  have hd := congrArg String.data h
  rw [String.data_append, String.data_append] at hd
  exact List.append_cancel_left hd

/-- C2 (amended): the cache key is not order-independent; it embeds the
comma-join of config.languages verbatim, so two requests identical except
for the filter ordering share a key exactly when the comma-joined
encodings coincide. -/
theorem requestCacheKey_languages_iff (imdbId : String) (isSeries : Bool)
    (season episode : Option JSNum) (l1 l2 : List String) :
    (requestCacheKey imdbId isSeries season episode (some l1) =
     requestCacheKey imdbId isSeries season episode (some l2)) ↔
    String.intercalate "," l1 = String.intercalate "," l2 := by
  unfold requestCacheKey langsEncode
  constructor
  · intro h
    cases isSeries with
    | false => simp only [if_neg] at h; exact string_append_cancel_left h
    | true => simp only [if_pos] at h; exact string_append_cancel_left h
  · intro h
    cases isSeries <;> simp [h]

/-! ## Season-indicator lemmas (for C6/C10) -/

theorem jsToLower_digit {c : Char} (h : isDigitCh c = true) : jsToLower c = c := by
  have h' := of_decide_eq_true h
  unfold jsToLower
  rw [if_neg]
  omega

theorem map_jsToLower_digits :
    ∀ (l : List Char), (∀ c ∈ l, isDigitCh c = true) → List.map jsToLower l = l
  | [], _ => rfl
  | c :: cs, h => by
      simp only [List.map_cons]
      rw [jsToLower_digit (h c (List.mem_cons_self c cs)),
        map_jsToLower_digits cs (fun d hd => h d (List.mem_cons_of_mem c hd))]

theorem takeWhile_digits_append {p : Char → Bool} :
    ∀ (d : List Char) (x : Char) (r : List Char),
      (∀ c ∈ d, p c = true) → p x = false →
      (d ++ x :: r).takeWhile p = d
  | [], x, r, _, hx => by simp [List.takeWhile_cons, hx]
  | c :: cs, x, r, hd, hx => by
      simp only [List.cons_append, List.takeWhile_cons,
        hd c (List.mem_cons_self c cs), if_true]
      rw [takeWhile_digits_append cs x r (fun e he => hd e (List.mem_cons_of_mem c he)) hx]

theorem dxdAt_decomp (d1 d2 post : List Char) (h1 : d1 ≠ []) (h2 : d2 ≠ [])
    (hd1 : ∀ c ∈ d1, isDigitCh c = true) (hd2 : ∀ c ∈ d2, isDigitCh c = true) :
    dxdAt (d1 ++ 'x' :: (d2 ++ post)) = true := by
  have hx : isDigitCh 'x' = false := by decide
  unfold dxdAt
  simp only [takeWhile_digits_append d1 'x' (d2 ++ post) hd1 hx]
  have hdrop : (d1 ++ 'x' :: (d2 ++ post)).drop d1.length = 'x' :: (d2 ++ post) := by
    rw [List.drop_left]
  rw [hdrop]
  cases d1 with
  | nil => exact absurd rfl h1
  | cons a as =>
      cases d2 with
      | nil => exact absurd rfl h2
      | cons b bs =>
          simp [List.takeWhile_cons, hd2 b (List.mem_cons_self b bs)]

theorem hasSeasonIndicator_append :
    ∀ (pre suf : List Char), seasonIndicatorAt suf = true → suf ≠ [] →
      hasSeasonIndicator (pre ++ suf) = true
  | [], suf, h, hne => by
      cases suf with
      | nil => exact absurd rfl hne
      | cons c cs => simp only [List.nil_append]; unfold hasSeasonIndicator; rw [h]; rfl
  | c :: pre, suf, h, hne => by
      simp only [List.cons_append]
      unfold hasSeasonIndicator
      rw [hasSeasonIndicator_append pre suf h hne]
      simp

/-! ## C6: strict season matching -/

/-- C6: a text with a season indicator is matched strictly: the wrong
season S02E05 is rejected for (1,5), the right one S01E05 is accepted,
and in general a true result under a season indicator means one of the
exact strict patterns for the pair matched. -/
theorem matchesEpisode_strict_requires_pattern :
    matchesEpisode (some "Show.S02E05.1080p") (some (JSNum.int 1)) (some (JSNum.int 5)) = false ∧
    matchesEpisode (some "Show.S01E05.1080p") (some (JSNum.int 1)) (some (JSNum.int 5)) = true ∧
    (∀ (t : String) (season : Option JSNum) (ep : JSNum),
      hasSeasonIndicator (lowerStr t.data) = true →
      matchesEpisode (some t) season (some ep) = true →
      strictMatch (lowerStr t.data) season ep = true) := by
  refine ⟨by decide, by decide, ?_⟩
  intro t season ep hseason hmatch
  rw [matchesEpisode_some] at hmatch
  by_cases hemp : t.data.isEmpty = true
  · rw [if_pos hemp] at hmatch
    exact absurd hmatch (by simp)
  · rw [if_neg hemp, if_pos hseason] at hmatch
    exact hmatch

/-- C6 witness. -/
theorem matchesEpisode_strict_requires_pattern_witness :
    strictMatch (lowerStr "Show.S01E05.1080p".data) (some (JSNum.int 1)) (JSNum.int 5) = true :=
  matchesEpisode_strict_requires_pattern.2.2 "Show.S01E05.1080p"
    (some (JSNum.int 1)) (JSNum.int 5) (by decide) (by decide)

/-! ## C10: any digits-x-digits substring forces the strict branch -/

/-- C10: a text containing any digits-x-digits substring (for example the
resolution token 1920x1080) is routed to the strict branch, whatever
season/episode is asked: matchesEpisode equals the strict test, and the
lenient patterns are never consulted.  Concretely, "Show.05.1920x1080"
is rejected for episode 5 even though the delimited ".05." token would
satisfy the lenient branch. -/
theorem matchesEpisode_digits_x_digits_strict :
    (∀ (t : String) (season : Option JSNum) (ep : JSNum) (pre d1 d2 post : List Char),
      t.data = pre ++ d1 ++ 'x' :: (d2 ++ post) →
      d1 ≠ [] → d2 ≠ [] →
      (∀ c ∈ d1, isDigitCh c = true) → (∀ c ∈ d2, isDigitCh c = true) →
      matchesEpisode (some t) season (some ep) =
        strictMatch (lowerStr t.data) season ep) ∧
    matchesEpisode (some "Show.05.1920x1080") (some (JSNum.int 1)) (some (JSNum.int 5)) = false ∧
    lenientMatch (lowerStr "Show.05.1920x1080".data) (JSNum.int 5) = true := by
  refine ⟨?_, by decide, by decide⟩
  intro t season ep pre d1 d2 post hdec h1 h2 hd1 hd2
  rw [matchesEpisode_some]
  have hne : t.data ≠ [] := by
    rw [hdec]
    cases pre <;> cases d1 <;> simp
  have hemp : t.data.isEmpty = false := by
    cases hl : t.data with
    | nil => exact absurd hl hne
    | cons c cs => rfl
  have hseason : hasSeasonIndicator (lowerStr t.data) = true := by
    rw [hdec]
    unfold lowerStr
    rw [List.map_append, List.map_append, List.map_cons,
      show jsToLower 'x' = 'x' from by decide, List.map_append,
      map_jsToLower_digits d1 hd1, map_jsToLower_digits d2 hd2,
      List.append_assoc]
    apply hasSeasonIndicator_append
    · unfold seasonIndicatorAt
      rw [dxdAt_decomp d1 d2 (List.map jsToLower post) h1 h2 hd1 hd2]
      simp
    · cases d1 with
      | nil => exact absurd rfl h1
      | cons a as => simp
  rw [hemp, hseason]
  simp

/-- C10 witness. -/
theorem matchesEpisode_digits_x_digits_strict_witness :
    matchesEpisode (some "Show.05.1920x1080") (some (JSNum.int 2)) (some (JSNum.int 7)) =
      strictMatch (lowerStr "Show.05.1920x1080".data) (some (JSNum.int 2)) (JSNum.int 7) :=
  matchesEpisode_digits_x_digits_strict.1 "Show.05.1920x1080"
    (some (JSNum.int 2)) (JSNum.int 7) "Show.05.".data "1920".data "1080".data []
    (by decide) (by decide) (by decide) (by decide) (by decide)

/-! ## Nonempty-group lemmas (for C1) -/

theorem dashGroup_ne_nil :
    ∀ (s g : List Char), dashGroup s = some g → g ≠ []
  | [], g, h => by simp [dashGroup] at h
  | c :: rest, g, h => by
      unfold dashGroup at h
      split at h
      · rename_i hcond
        injection h with h
        subst h
        have hok := hcond.2
        unfold dashRunOk at hok
        rw [Bool.and_eq_true] at hok
        intro hg
        rw [hg] at hok
        simp at hok
      · exact dashGroup_ne_nil rest g h

theorem bracketStart_ne_nil (s g : List Char) (h : bracketStart s = some g) :
    g ≠ [] := by
  unfold bracketStart at h
  split at h
  · split at h
    · rename_i hcond
      injection h with h
      subst h
      rw [Bool.and_eq_true] at hcond
      intro hg
      rw [hg] at hcond
      simp at hcond
    · exact absurd h (by simp)
  · exact absurd h (by simp)

theorem bracketEnd_ne_nil :
    ∀ (s g : List Char), bracketEnd s = some g → g ≠ []
  | [], g, h => by simp [bracketEnd] at h
  | c :: rest, g, h => by
      unfold bracketEnd at h
      split at h
      · rename_i hcond
        injection h with h
        subst h
        exact hcond.2.1
      · exact bracketEnd_ne_nil rest g h

theorem pickGroupWord_ne_nil :
    ∀ (ws : List (List Char)) (W : String), pickGroupWord ws = some W → W.data ≠ []
  | [], W, h => by simp [pickGroupWord] at h
  | w :: ws, W, h => by
      unfold pickGroupWord at h
      split at h
      · rename_i hcond
        injection h with h
        subst h
        simp only [Bool.and_eq_true, decide_eq_true_eq] at hcond
        have hlen := hcond.2
        intro hg
        have hup : upperStr w = [] := hg
        unfold upperStr at hup
        cases w with
        | nil => simp at hlen
        | cons c cs => simp at hup
      · exact pickGroupWord_ne_nil ws W h

theorem getReleaseGroup_data_ne_nil (f g : String)
    (h : getReleaseGroup f = some g) : g.data ≠ [] := by
  unfold getReleaseGroup at h
  split at h
  · exact absurd h (by simp)
  · cases hdg : dashGroup (lowerStr (stripExt f.data)) with
    | some g0 =>
        rw [hdg] at h
        injection h with h
        subst h
        intro hg
        have : upperStr g0 = [] := hg
        have hne := dashGroup_ne_nil _ _ hdg
        unfold upperStr at this
        cases g0 with
        | nil => exact hne rfl
        | cons a as => simp at this
    | none =>
        rw [hdg] at h
        cases hbg : bracketGroup (lowerStr (stripExt f.data)) with
        | some g0 =>
            rw [hbg] at h
            injection h with h
            subst h
            have hne : g0 ≠ [] := by
              unfold bracketGroup at hbg
              cases hbs : bracketStart (lowerStr (stripExt f.data)) with
              | some g1 =>
                  rw [hbs] at hbg
                  injection hbg with hbg
                  subst hbg
                  exact bracketStart_ne_nil _ _ hbs
              | none =>
                  rw [hbs] at hbg
                  exact bracketEnd_ne_nil _ _ hbg
            intro hg
            have : upperStr g0 = [] := hg
            unfold upperStr at this
            cases g0 with
            | nil => exact hne rfl
            | cons a as => simp at this
        | none =>
            rw [hbg] at h
            unfold wordsGroup at h
            exact pickGroupWord_ne_nil _ _ h

theorem hasGroupMatch_video_ne (v s : String) (h : hasGroupMatch v s = true) :
    v.data.isEmpty = false := by
  unfold hasGroupMatch at h
  cases hv : getReleaseGroup v with
  | none => rw [hv] at h; exact absurd h (by simp)
  | some g =>
      cases he : v.data.isEmpty with
      | false => rfl
      | true =>
          unfold getReleaseGroup at hv
          rw [if_pos he] at hv
          exact absurd hv (by simp)

theorem hasGroupMatch_sub_ne (v s : String) (h : hasGroupMatch v s = true) :
    s.data.isEmpty = false := by
  unfold hasGroupMatch at h
  cases hv : getReleaseGroup v with
  | none => rw [hv] at h; exact absurd h (by simp)
  | some g =>
      rw [hv] at h
      cases hse : s.data with
      | cons a as => rfl
      | nil =>
          exfalso
          have hgs : getReleaseGroup s = none := by
            unfold getReleaseGroup
            rw [if_pos (by rw [hse]; rfl)]
          rw [hgs, hse] at h
          have hgne := getReleaseGroup_data_ne_nil v g hv
          cases hgd : g.data with
          | nil => exact hgne hgd
          | cons b bs =>
              simp [upperStr, containsSub, startsWithSub, hgd] at h

/-! ## C1: the group bonus versus all lower-tier bonuses -/

def cexVideo : String := "a.TS-z.mkv"

def cexSubA : String := String.mk ('Z' :: List.replicate 60 'q')

def cexSubB : String := "a.TS.mkv"

/-- C1 counterexample: candidate A carries only the release-group bonus
(group "z" is matched by inclusion, fuzzy similarity rounds to 0), while
candidate B has no group match but collects source (+30), technical (+5)
and full fuzzy (+15) bonuses.  Both score exactly 50, so the claimed
strict inequality fails. -/
theorem calculateMatchScore_group_tie :
    hasGroupMatch cexVideo cexSubA = true ∧
    hasGroupMatch cexVideo cexSubB = false ∧
    calculateMatchScore cexVideo cexSubA none = 50 ∧
    calculateMatchScore cexVideo cexSubB none = 50 ∧
    ¬ (calculateMatchScore cexVideo cexSubA none >
        calculateMatchScore cexVideo cexSubB none) := by
  refine ⟨by decide, by decide, by decide, by decide, ?_⟩
  intro hgt
  rw [show calculateMatchScore cexVideo cexSubA none = 50 from by decide,
    show calculateMatchScore cexVideo cexSubB none = 50 from by decide] at hgt
  omega

/-- C1 (amended): when the release-group bonus applies to (V, A) and not
to (V, B), score(A) is at least score(B) - not strictly greater - whatever
B collects from source, technical and fuzzy bonuses: a group match pins
the score at 50 or more, while 30 + 5 + 15 caps a group-less score at 50,
with equality attainable (see the counterexample). -/
theorem calculateMatchScore_group_dominates (v a b : String)
    (ma mb : Option PageMeta) (ha : hasGroupMatch v a = true)
    (hb : hasGroupMatch v b = false) :
    calculateMatchScore v b mb ≤ calculateMatchScore v a ma := by
  have hva := hasGroupMatch_video_ne v a ha
  have hsa := hasGroupMatch_sub_ne v a ha
  have hA : 50 ≤ calculateMatchScore v a ma := by
    unfold calculateMatchScore
    rw [hva, hsa, ha]
    simp only [Bool.or_self, Bool.false_eq_true, if_false, if_true]
    refine Nat.le_min.mpr ⟨by omega, by omega⟩
  have hB : calculateMatchScore v b mb ≤ 50 := by
    unfold calculateMatchScore
    split
    · omega
    · rw [hb]
      simp only [Bool.false_eq_true, if_false]
      have hf := fuzzyBonus_le v b
      refine le_trans (Nat.min_le_right _ _) ?_
      split <;> split <;> omega
  omega

/-- C1 witness for the amended theorem. -/
theorem calculateMatchScore_group_dominates_witness :
    calculateMatchScore cexVideo cexSubB none ≤
      calculateMatchScore cexVideo cexSubA none :=
  calculateMatchScore_group_dominates cexVideo cexSubA cexSubB none none
    (by decide) (by decide)

/-! ## C8: archive-cache behaviour on failure -/

/-- C8: when the record is not cached and the download/listing pipeline
fails, getArchiveSrtList returns the empty listing and leaves the archive
cache exactly as it was; consequently a later call for the same record id
(the cache still has no entry) runs the pipeline again, and a then
succeeding pipeline yields its listing and caches it. -/
theorem getArchiveSrtList_failure_is_isolated (env env2 : Env) (now now2 : Int)
    (archive : ArchiveCache) (apiKey subId : String) (e : String)
    (hmiss : List.lookup ("archive_" ++ subId) archive = none)
    (hfail : archivePipeline env apiKey subId = .error e) :
    getArchiveSrtList env now archive apiKey subId = ([], archive) ∧
    (∀ (buffer : Buffer) (srtFiles : List String) (archiveType : String),
      archivePipeline env2 apiKey subId = .ok (buffer, srtFiles, archiveType) →
      getArchiveSrtList env2 now2 archive apiKey subId =
        (srtFiles, ("archive_" ++ subId,
          { buffer := buffer, srtFiles := srtFiles, archiveType := archiveType,
            timestamp := now2 }) :: archive)) := by
  constructor
  · unfold getArchiveSrtList
    rw [hmiss, hfail]
  · intro buffer srtFiles archiveType hok
    unfold getArchiveSrtList
    rw [hmiss, hok]

def envC8fail : Env :=
  { searchByImdb := fun _ => .ok []
    downloadArchive := fun _ _ => .error "network"
    listSrtFiles := fun _ => .ok []
    getArchiveType := fun _ => .ok "zip"
    getSubtitleMetadata := fun _ => .ok { fps := none, formats := [] }
    nodeEnv := none
    port := none }

/-- C8 witness: a concrete failing download on an empty cache. -/
theorem getArchiveSrtList_failure_is_isolated_witness :
    getArchiveSrtList envC8fail 0 [] "key" "42" = ([], []) :=
  (getArchiveSrtList_failure_is_isolated envC8fail envC8fail 0 0 [] "key" "42"
    "network" rfl rfl).1

/-! ## C3: the handler never raises and degrades to the empty sequence -/

/-- C3: subtitlesHandler is a total function into a subtitle list (no
exception can escape: every collaborator failure is modelled in Except and
consumed by the embedded catch).  A request without a config, or whose
apiKey is absent or empty, yields the empty sequence with the state
untouched; and whenever the resolution body reports any failure, the
handler yields the empty sequence (retaining only the archive-cache
entries absorbed before the throw). -/
theorem subtitlesHandler_empty_on_failure :
    (∀ (env : Env) (now : Int) (st : HandlerState) (req : Request),
      req.config = none → subtitlesHandler env now st req = ([], st)) ∧
    (∀ (env : Env) (now : Int) (st : HandlerState) (req : Request) (config : Config),
      req.config = some config → apiKeyUsable config.apiKey = false →
      subtitlesHandler env now st req = ([], st)) ∧
    (∀ (env : Env) (now : Int) (st : HandlerState) (req : Request) (config : Config)
      (e : String) (archive1 : ArchiveCache),
      req.config = some config → apiKeyUsable config.apiKey = true →
      freshCacheLookup now st.cache (handlerKey req config) = none →
      List.lookup (handlerKey req config) st.pending = none →
      resolveBody env now st.archive (config.apiKey.getD "")
          (parseStremioId req.id).imdbId (handlerIsSeries req)
          (parseStremioId req.id).season (parseStremioId req.id).episode
          (videoFilenameOf req) config.languages (computeBaseUrl env config)
        = (.error e, archive1) →
      subtitlesHandler env now st req = ([], { st with archive := archive1 })) := by
  refine ⟨?_, ?_, ?_⟩
  · intro env now st req h
    unfold subtitlesHandler
    rw [h]
  · intro env now st req config h hk
    unfold subtitlesHandler
    simp only [h, hk, Bool.not_false, if_true]
  · intro env now st req config e archive1 h hk hc hp hr
    unfold subtitlesHandler
    simp only [h, hk, Bool.not_true, Bool.false_eq_true, if_false, hc, hp, hr]

def envC3down : Env :=
  { searchByImdb := fun _ => .error "down"
    downloadArchive := fun _ _ => .error "down"
    listSrtFiles := fun _ => .error "down"
    getArchiveType := fun _ => .error "down"
    getSubtitleMetadata := fun _ => .error "down"
    nodeEnv := none
    port := none }

def configC3 : Config := { apiKey := some "k", languages := none, baseUrl := none }

def reqC3 : Request :=
  { type := "movie", id := "tt0111161", extra := none, config := some configC3 }

def stEmpty : HandlerState := { cache := [], pending := [], archive := [] }

/-- C3 witness: with the upstream search failing, the handler answers with
the empty sequence. -/
theorem subtitlesHandler_empty_on_failure_witness :
    subtitlesHandler envC3down 0 stEmpty reqC3 = ([], stEmpty) :=
  subtitlesHandler_empty_on_failure.2.2 envC3down 0 stEmpty reqC3 configC3
    "down" [] rfl rfl rfl rfl rfl

end StremioSubsRo
